import Mathlib

/-!
Verification development for the `scratch-archive` full-text search tool
(`scratch-search.py`): a shallow embedding of its path classifier, latest-link
resolver, ingestion pipeline, faceted search, and result line locator, with
theorems settling the specified behavioural properties.

Modelling conventions:
* Filesystem paths are lists of path segments (`List String`), mirroring
  `pathlib.Path.parts`.  A file's absolute parts are `base ++ relParts` where
  `base` is the archive root's parts.
* Machine integers are `Nat`/`Int`; the SQLite `LIMIT` argument is an `Int`
  because `argparse` with `type=int` accepts negative values.
* The character classes of Python's `re` and `str` methods are modelled over
  the ASCII range used by the archive convention (`Char.isDigit`,
  `Char.toLower`, `Char.isWhitespace`); both the code and the specification
  use the same classes, so the comparison between them is unaffected.
-/

namespace ScratchSearch

/-- `VALID_TYPES` from the source: the fixed known category set. -/
def VALID_TYPES : List String :=
  ["plans", "context", "research", "reviews", "filebox", "history", "prompts", "features"]

/-- `SKIP_FILES` from the source. -/
def SKIP_FILES : List String := [".scratch-index", ".DS_Store"]

/-- `SKIP_DIRS` from the source. -/
def SKIP_DIRS : List String := [".git"]

/-- Exact match of `\d{8}_\d{6}`: 8 digits, an underscore, 6 digits, and
nothing else. -/
def timestampExact (s : String) : Bool :=
  let cs := s.toList
  cs.length == 15 && (cs.take 8).all Char.isDigit && cs.getD 8 ' ' == '_'
    && (cs.drop 9).all Char.isDigit

/-- Truthiness of `TIMESTAMP_RE.match(s)` for `re.compile(r"^\d{8}_\d{6}$")`:
`re.match` anchors at the start, and in Python an unadorned `$` matches at the
end of the string *or just before a newline at the end of the string*, so the
pattern also accepts the 15 matching characters followed by one `'\n'`. -/
def timestampREMatch (s : String) : Bool :=
  timestampExact s
    || (s.toList.getLast? == some '\n' && timestampExact (String.mk s.toList.dropLast))

/-- The facet record produced by `parse_archive_path`. -/
structure Facets where
  project : String
  branch : String
  timestamp : String
  dir_type : Option String
  deriving Repr, DecidableEq

/-- `parse_archive_path(filepath, archive_base)` from the source, expressed on
`rel = filepath.relative_to(archive_base).parts` (the function's only use of
its arguments).  `rel.getD i ""` is `parts[i]`, total because every access in
the source is guarded by the length checks.  Returns `none` where the source
returns `None`. -/
def parse_archive_path (rel : List String) : Option Facets :=
  if rel.length < 4 then
    none
  else if !timestampREMatch (rel.getD 2 "") then
    none
  else
    some
      { project := rel.getD 0 ""
        branch := rel.getD 1 ""
        timestamp := rel.getD 2 ""
        dir_type :=
          if 3 < rel.length && VALID_TYPES.contains (rel.getD 3 "") then
            some (rel.getD 3 "")
          else if 3 < rel.length then
            some "root"
          else
            none }

/-- Rebuild a relative path from the classifier's facets plus the filename:
the `category` segment is reinstated when the facet holds a real category,
and omitted when the facet is the sentinel `"root"` (absent category). -/
def reconstructRelPath (f : Facets) (filename : String) : List String :=
  [f.project, f.branch, f.timestamp]
    ++ (match f.dir_type with
        | some c => if c == "root" then [] else [c]
        | none => [])
    ++ [filename]

/-- The archive convention's filename shape: a name ending in `.md`
(modelled over the character list so it evaluates in the kernel). -/
def mdFilename (fn : String) : Bool :=
  let cs := fn.toList
  3 ≤ cs.length && cs.drop (cs.length - 3) == ['.', 'm', 'd']

/-! ### Python string primitives used by `_find_match_line`

The source leans on `str.replace`, `str.split()`, `str.splitlines()`,
`str.lower()` and the `in` substring test.  They are modelled here over
character lists so they evaluate in the kernel.  Case mapping uses the ASCII
table (`Char.toLower`), which agrees with Python on the archive's content
range. -/

/-- Characters Python's `str.split()` (no separator) splits on. -/
def pyIsSpace (c : Char) : Bool :=
  c == ' ' || c == '\t' || c == '\n' || c == '\r' || c == '\x0b' || c == '\x0c'

/-- Characters Python's `str.splitlines()` treats as line boundaries
(`"\r\n"` additionally counts as a single boundary). -/
def pyIsLineBreak (c : Char) : Bool :=
  c == '\n' || c == '\r' || c == '\x0b' || c == '\x0c'
    || c == '\x1c' || c == '\x1d' || c == '\x1e' || c == '\u0085'
    || c == '\u2028' || c == '\u2029'

/-- `str.split()` with no separator: split on runs of whitespace, no empty
pieces. -/
def pySplitWsAux : List Char → List Char → List String
  | [], acc => if acc.isEmpty then [] else [String.mk acc.reverse]
  | c :: rest, acc =>
    if pyIsSpace c then
      if acc.isEmpty then pySplitWsAux rest []
      else String.mk acc.reverse :: pySplitWsAux rest []
    else
      pySplitWsAux rest (c :: acc)

/-- `s.split()` in Python. -/
def pySplitWs (s : String) : List String :=
  pySplitWsAux s.toList []

/-- `str.splitlines()`: split at line boundaries, `"\r\n"` counting as one
boundary, with no empty trailing piece after a final boundary. -/
def pySplitLinesAux : List Char → List Char → List String
  | [], acc => if acc.isEmpty then [] else [String.mk acc.reverse]
  | '\r' :: '\n' :: rest, acc => String.mk acc.reverse :: pySplitLinesAux rest []
  | c :: rest, acc =>
    if pyIsLineBreak c then String.mk acc.reverse :: pySplitLinesAux rest []
    else pySplitLinesAux rest (c :: acc)

/-- `s.splitlines()` in Python. -/
def pySplitLines (s : String) : List String :=
  pySplitLinesAux s.toList []

/-- `s.lower()` over the ASCII case table. -/
def pyLower (s : String) : String :=
  String.mk (s.toList.map Char.toLower)

/-- `pattern.replace('"', "")`: drop every double-quote character. -/
def stripDoubleQuotes (s : String) : String :=
  String.mk (s.toList.filter (fun c => c != '\x22'))

/-- Whether `pre` is a leading run of `l` (component of the substring test). -/
def charsLeadingRun : List Char → List Char → Bool
  | [], _ => true
  | _ :: _, [] => false
  | a :: as, b :: bs => a == b && charsLeadingRun as bs

/-- Python's `needle in hay` substring test on strings. -/
def strHasSubstring (hay needle : String) : Bool :=
  go hay.toList needle.toList
where
  go : List Char → List Char → Bool
    | [], n => n.isEmpty
    | h :: hs, n => charsLeadingRun n (h :: hs) || go hs n

/-- One line of `_find_match_line`'s scan: does `line` contain some term,
case-insensitively? -/
def lineMatchesAnyTerm (terms : List String) (line : String) : Bool :=
  terms.any (fun t => strHasSubstring (pyLower line) (pyLower t))

/-- The `enumerate(..., 1)` scan of `_find_match_line`: first 1-based index of
a line containing any term, if one exists. -/
def findMatchLineScan (terms : List String) : List String → Nat → Option Nat
  | [], _ => none
  | line :: rest, i =>
    if lineMatchesAnyTerm terms line then some i
    else findMatchLineScan terms rest (i + 1)

/-- `_find_match_line(filepath, pattern)` from the source.  The file read is
modelled by `contentOpt`: `none` when `read_text` raises `OSError` or
`PermissionError` (the caught exceptions), `some content` otherwise.  Returns
the first 1-based line number whose lowercased text contains any lowercased
whitespace-delimited term of the de-quoted pattern, and 1 when the scan finds
nothing or the file is unreadable. -/
def find_match_line (contentOpt : Option String) (pattern : String) : Nat :=
  let terms := pySplitWs (stripDoubleQuotes pattern)
  match contentOpt with
  | none => 1
  | some content => (findMatchLineScan terms (pySplitLines content) 1).getD 1

/-! ### Index Store and search (`documents` / `documents_fts` / `do_search`)

The `documents` table row.  `id` is the SQLite rowid (`INTEGER PRIMARY KEY`),
`is_latest` the stored `0`/`1` integer, `filepath` the absolute path
(`str(md_file)`) as its segment list. -/

structure Document where
  id : Nat
  project : String
  branch : String
  timestamp : String
  dir_type : Option String
  filepath : List String
  filename : String
  is_latest : Nat
  indexed_at : String
  deriving Repr, DecidableEq

/-- The store: the `documents` table plus the `documents_fts` virtual table
(rowid paired with the indexed `content` column). -/
structure DBState where
  documents : List Document
  fts : List (Nat × String)
  deriving Repr, DecidableEq

/-- The FTS5 engine at the boundary of the embedding.  `run` parses the
query text: a malformed query yields `Except.error` (SQLite raises
`sqlite3.OperationalError` when the `MATCH` is first evaluated), a
well-formed one a match predicate on the indexed content.  `rank` is the
engine's relevance score for matching content: FTS5's `rank` column, where
*smaller* values mean *better* matches (bm25 scores are negated), so the
SQL's `ORDER BY rank` ascending lists best matches first.  Theorems quantify
over every engine. -/
structure Fts5Engine where
  run : String → Except String (String → Bool)
  rank : String → String → Int

/-- The `search` subcommand's arguments: `pattern`, the facet filter options
(project, type, branch), the latest-only flag, and `-n` (an `int`, default
20, so possibly negative). -/
structure SearchArgs where
  pattern : String
  project : Option String
  type : Option String
  branch : Option String
  latest : Bool
  n : Int
  deriving Repr, DecidableEq

/-- The `WHERE` clauses appended by `do_search`: one conjunct per supplied
facet filter, so documents must satisfy every supplied filter at once. -/
def facetFilter (args : SearchArgs) (d : Document) : Bool :=
  (match args.project with | none => true | some p => d.project == p)
    && (match args.type with | none => true | some t => d.dir_type == some t)
    && (match args.branch with | none => true | some b => d.branch == b)
    && (!args.latest || d.is_latest == 1)

/-- `FROM documents_fts f JOIN documents d ON d.id = f.rowid WHERE
documents_fts MATCH ?`: each matching content row paired with its document
and the engine's rank for that content. -/
def joinMatches (isMatch : String → Bool) (rank : String → Int) (db : DBState) :
    List (Document × Int) :=
  db.fts.flatMap (fun rc =>
    if isMatch rc.2 then
      (db.documents.filter (fun d => d.id == rc.1)).map (fun d => (d, rank rc.2))
    else [])

/-- Insertion step of `ORDER BY rank` (ascending by the rank value). -/
def rankInsert (x : Document × Int) : List (Document × Int) → List (Document × Int)
  | [] => [x]
  | y :: ys => if x.2 ≤ y.2 then x :: y :: ys else y :: rankInsert x ys

/-- `ORDER BY rank`: a deterministic realization of the engine's ascending
rank order (ties in the engine's internal order, which the spec leaves to
the engine). -/
def rankSort : List (Document × Int) → List (Document × Int)
  | [] => []
  | x :: xs => rankInsert x (rankSort xs)

/-- `LIMIT ?` with the bound parameter `args.n`.  Per SQLite, a negative
limit expression means no upper bound on the number of returned rows. -/
def applyLimit (n : Int) (rows : List (Document × Int)) : List (Document × Int) :=
  if n < 0 then rows else rows.take n.toNat

/-- Outcome of the `search` subcommand's query phase: missing database,
caught query-syntax error (with the two stderr lines), or result rows. -/
inductive SearchResult where
  | noDb : SearchResult
  | queryError (errMsg tip : String) : SearchResult
  | ok (rows : List (Document × Int)) : SearchResult
  deriving Repr, DecidableEq

/-- `do_search` up to row retrieval: the missing-database check, then the
single SQL statement — match, facet `WHERE` conjuncts, `ORDER BY rank`,
`LIMIT` — with `sqlite3.OperationalError` from a malformed query caught and
reported as the source's two stderr lines. -/
def do_search (eng : Fts5Engine) (dbOpt : Option DBState) (args : SearchArgs) :
    SearchResult :=
  match dbOpt with
  | none => .noDb
  | some db =>
    match eng.run args.pattern with
    | .error e =>
      .queryError ("search error: " ++ e)
        "tip: use simple terms or quote phrases with double quotes"
    | .ok isMatch =>
      .ok (applyLimit args.n
        (rankSort ((joinMatches isMatch (eng.rank args.pattern) db).filter
          (fun dr => facetFilter args dr.1))))

/-- Process exit status of the `search` subcommand for each query outcome
(`return 1` on the missing database and on the caught query error, `0`
otherwise). -/
def searchExitCode : SearchResult → Nat
  | .noDb => 1
  | .queryError _ _ => 1
  | .ok _ => 0

/-- A concrete document for closed search instances. -/
def sampleDoc : Document :=
  { id := 1, project := "proj", branch := "main", timestamp := "20240101_120000"
    dir_type := some "plans"
    filepath := ["root", "proj", "main", "20240101_120000", "plans", "x.md"]
    filename := "x.md", is_latest := 0, indexed_at := "2024-01-02T03:04:05" }

/-- A second concrete document (a different rowid and content). -/
def sampleDoc2 : Document :=
  { id := 2, project := "proj", branch := "main", timestamp := "20240101_120000"
    dir_type := some "research"
    filepath := ["root", "proj", "main", "20240101_120000", "research", "y.md"]
    filename := "y.md", is_latest := 1, indexed_at := "2024-01-02T03:04:05" }

/-- A concrete two-document store. -/
def sampleDb : DBState :=
  { documents := [sampleDoc, sampleDoc2], fts := [(1, "aaa"), (2, "z")] }

/-- A concrete engine: every query is well-formed, everything matches, and
content is ranked by its length. -/
def lengthRankEngine : Fts5Engine :=
  { run := fun _ => .ok (fun _ => true), rank := fun _ c => (c.toList.length : Int) }

/-- A concrete engine whose query parser always reports a syntax error. -/
def badQueryEngine : Fts5Engine :=
  { run := fun _ => .error "fts5: syntax error near \x22\x22", rank := fun _ _ => 0 }

/-- Concrete search arguments with every facet filter supplied. -/
def sampleArgs : SearchArgs :=
  { pattern := "aaa", project := some "proj", type := some "plans"
    branch := some "main", latest := false, n := 20 }

/-- Concrete search arguments with no facet filters. -/
def sampleArgsNoFilter : SearchArgs :=
  { pattern := "aaa", project := none, type := none
    branch := none, latest := false, n := 20 }

/-! ### Ingestion (`resolve_latest_timestamps`, `do_ingest`)

The filesystem inputs are the observations the source makes of it:
`rglob("latest")` hits with their symlink status and resolution, and
`rglob("*.md")` hits with their path (relative to the archive base), their
content, and whether `read_text` succeeds. -/

/-- One `rglob("latest")` hit: whether the entry is a symlink, the
canonical path `link.resolve()` (as segments), and whether that target is
a directory. -/
structure LinkEntry where
  isSymlink : Bool
  resolved : List String
  resolvedIsDir : Bool
  deriving Repr, DecidableEq

/-- One `rglob("*.md")` hit under the scan root: its parts relative to the
archive base, its text content (after lossy decoding), and whether
`read_text` succeeds (`false` models the caught `OSError`/`PermissionError`). -/
structure FileEntry where
  relParts : List String
  content : String
  readable : Bool
  deriving Repr, DecidableEq

/-- The archive tree as `do_ingest` observes it. -/
structure Filesystem where
  rootExists : Bool
  projects : List String
  files : List FileEntry
  links : List LinkEntry
  deriving Repr, DecidableEq

/-- `resolve_latest_timestamps(archive_base)`: the resolved real paths of the
entries named `latest` that are symlinks whose resolution target is a
directory; broken or non-directory links contribute nothing. -/
def resolve_latest_timestamps (links : List LinkEntry) : List (List String) :=
  (links.filter (fun l => l.isSymlink && l.resolvedIsDir)).map (fun l => l.resolved)

/-- SQLite's rowid assignment for `INTEGER PRIMARY KEY` without
`AUTOINCREMENT`: one more than the largest rowid in the table (1 when the
table is empty). -/
def nextRowid (docs : List Document) : Nat :=
  docs.foldr (fun d m => max d.id m) 0 + 1

/-- The scoped-ingest delete phase: remove the `documents_fts` rows whose
rowid is the id of a project-`A` document, then the project-`A` rows of
`documents`. -/
def scopedDelete (A : String) (db : DBState) : DBState :=
  { documents := db.documents.filter (fun d => !(d.project == A))
    fts := db.fts.filter (fun rc =>
      !(db.documents.any (fun d => d.id == rc.1 && d.project == A))) }

/-- The row the scan loop's `INSERT` builds for one classified file: the
parsed facets, the absolute filepath and name, `is_latest` from membership of
the file's `project/branch/timestamp` directory in the Latest Set, and the
run's shared `indexed_at`; the rowid is SQLite's `nextRowid`. -/
def mkIngestDoc (base : List String) (latestDirs : List (List String)) (now : String)
    (docs : List Document) (f : FileEntry) (parsed : Facets) : Document :=
  { id := nextRowid docs, project := parsed.project, branch := parsed.branch
    timestamp := parsed.timestamp, dir_type := parsed.dir_type
    filepath := base ++ f.relParts, filename := (base ++ f.relParts).getLastD ""
    is_latest :=
      if latestDirs.contains (base ++ [parsed.project, parsed.branch, parsed.timestamp])
      then 1 else 0
    indexed_at := now }

/-- The per-file body of `do_ingest`'s scan loop, acting on
`(db, count, errors)`: skip sentinel filenames and excluded directories,
classify, compute `is_latest` from the Latest Set, read (a failure counts an
error and continues), and insert the document row plus its content record (a
duplicate `filepath` violates the `UNIQUE` constraint, counts an error, and
continues). -/
def processFile (base : List String) (latestDirs : List (List String)) (now : String)
    (st : DBState × Nat × Nat) (f : FileEntry) : DBState × Nat × Nat :=
  if SKIP_FILES.contains ((base ++ f.relParts).getLastD "") then
    st
  else if SKIP_DIRS.any (fun skip => (base ++ f.relParts).contains skip) then
    st
  else
    match parse_archive_path f.relParts with
    | none => st
    | some parsed =>
      if !f.readable then
        (st.1, st.2.1, st.2.2 + 1)
      else if st.1.documents.any (fun d => d.filepath == base ++ f.relParts) then
        (st.1, st.2.1, st.2.2 + 1)
      else
        ({ documents := st.1.documents
              ++ [mkIngestDoc base latestDirs now st.1.documents f parsed]
           fts := st.1.fts ++ [(nextRowid st.1.documents, f.content)] },
         st.2.1 + 1, st.2.2)

/-- The files the scan visits: all of `rglob("*.md")` on a full rebuild,
only those under `archive_base / project` on a scoped one. -/
def ingestScanned (fs : Filesystem) (projectArg : Option String) : List FileEntry :=
  match projectArg with
  | none => fs.files
  | some A => fs.files.filter (fun f => f.relParts.head? == some A)

/-- A file the scan loop actually processes (reaches the read/insert stage):
not a sentinel filename, not inside an excluded directory, and classified by
the path classifier. -/
def isCandidate (base : List String) (f : FileEntry) : Bool :=
  !(SKIP_FILES.contains ((base ++ f.relParts).getLastD ""))
    && !(SKIP_DIRS.any (fun skip => (base ++ f.relParts).contains skip))
    && (parse_archive_path f.relParts).isSome

/-- Outcome of the `ingest` subcommand: the final store, the exit status,
the stdout report lines, the stderr lines, and the two counters. -/
structure IngestResult where
  db : DBState
  exitCode : Nat
  output : List String
  errOutput : List String
  count : Nat
  errors : Nat
  deriving Repr, DecidableEq

/-- The final report: the indexed count, plus the skipped count when any
file was skipped for a read error or duplicate. -/
def ingestReportLines (count errors : Nat) : List String :=
  ("indexed " ++ toString count ++ " documents into archives.db")
    :: (if errors == 0 then []
        else ["skipped " ++ toString errors ++ " files (read errors or duplicates)"])

/-- `do_ingest(args)` from the source: the two fatal up-front configuration
checks (archive root missing; named project missing), then either the scoped
delete of the named project's rows or the full drop-and-recreate, then the
scan loop over the (scoped) tree, and finally the commit and report. -/
def do_ingest (fs : Filesystem) (base : List String) (projectArg : Option String)
    (db₀ : DBState) (now : String) : IngestResult :=
  if !fs.rootExists then
    { db := db₀, exitCode := 1, output := []
      errOutput := ["archive dir not found"], count := 0, errors := 0 }
  else
    match projectArg with
    | some A =>
      if !fs.projects.contains A then
        { db := db₀, exitCode := 1, output := []
          errOutput := ["project not found: " ++ A], count := 0, errors := 0 }
      else
        let db₁ := scopedDelete A db₀
        let latest := resolve_latest_timestamps fs.links
        let res := (ingestScanned fs (some A)).foldl (processFile base latest now) (db₁, 0, 0)
        { db := res.1, exitCode := 0, output := ingestReportLines res.2.1 res.2.2
          errOutput := [], count := res.2.1, errors := res.2.2 }
    | none =>
      let latest := resolve_latest_timestamps fs.links
      let res := (ingestScanned fs none).foldl (processFile base latest now)
        (⟨[], []⟩, 0, 0)
      { db := res.1, exitCode := 0, output := ingestReportLines res.2.1 res.2.2
        errOutput := [], count := res.2.1, errors := res.2.2 }

/-- A concrete archive base for closed ingest instances. -/
def sampleBase : List String := ["root"]

/-- A concrete conventional file under project `A`. -/
def sampleFileA : FileEntry :=
  { relParts := ["A", "main", "20240101_120000", "plans", "x.md"]
    content := "jwt rotation bug", readable := true }

/-- A concrete `latest` symlink resolving to `sampleFileA`'s timestamp
directory. -/
def sampleLink : LinkEntry :=
  { isSymlink := true, resolved := ["root", "A", "main", "20240101_120000"]
    resolvedIsDir := true }

/-- A concrete filesystem holding project `A` only. -/
def sampleFs : Filesystem :=
  { rootExists := true, projects := ["A"], files := [sampleFileA]
    links := [sampleLink] }

/-- A concrete pre-existing document of another project `B`. -/
def sampleDocB : Document :=
  { id := 7, project := "B", branch := "main", timestamp := "20230505_050505"
    dir_type := some "research"
    filepath := ["root", "B", "main", "20230505_050505", "research", "b.md"]
    filename := "b.md", is_latest := 0, indexed_at := "2023-05-06T00:00:00" }

/-- A concrete store holding only project `B`'s document. -/
def sampleDbB : DBState :=
  { documents := [sampleDocB], fts := [(7, "b content")] }

end ScratchSearch

namespace ScratchSearch

/-! ## Theorems -/

/-! Evaluation checks of the path classifier against the source's behaviour. -/

example : parse_archive_path ["proj", "main", "20240101_120000", "plans", "x.md"]
    = some ⟨"proj", "main", "20240101_120000", some "plans"⟩ := by decide

example : parse_archive_path ["proj", "main", "20240101_120000", "x.md"]
    = some ⟨"proj", "main", "20240101_120000", some "root"⟩ := by decide

example : parse_archive_path ["proj", "main", "20240101_120000"] = none := by decide

example : parse_archive_path ["proj", "main", "notatimestamp", "x.md"] = none := by decide

example : parse_archive_path ["proj", "main", "2024010_120000", "x.md"] = none := by decide

/-- No member of the known category set is an `.md` filename. -/
theorem valid_types_not_md : ∀ c ∈ VALID_TYPES, mdFilename c = false := by decide

/-- No member of the known category set is the sentinel `"root"`. -/
theorem valid_types_ne_root : ∀ c ∈ VALID_TYPES, (c == "root") = false := by decide

/-- An `.md` filename is never a member of the known category set. -/
theorem contains_eq_false_of_md (fn : String) (h : mdFilename fn = true) :
    VALID_TYPES.contains fn = false := by
  by_contra hc
  rw [Bool.not_eq_false] at hc
  have hmem : fn ∈ VALID_TYPES := by simpa using hc
  have := valid_types_not_md fn hmem
  rw [h] at this
  exact absurd this (by decide)

/-- Value of the classifier on any path passing both of its guards. -/
theorem parse_archive_path_eq_some (rel : List String)
    (h4 : 4 ≤ rel.length) (ht : timestampREMatch (rel.getD 2 "") = true) :
    parse_archive_path rel
      = some ⟨rel.getD 0 "", rel.getD 1 "", rel.getD 2 "",
          some (if VALID_TYPES.contains (rel.getD 3 "") then rel.getD 3 "" else "root")⟩ := by
  unfold parse_archive_path
  rw [if_neg (by omega), ht]
  have h3 : 3 < rel.length := by omega
  cases hv : VALID_TYPES.contains (rel.getD 3 "") with
  | true => simp [h3, hv]
  | false => simp [h3, hv]

/-- The classifier rejects any path with fewer than 4 segments. -/
theorem parse_archive_path_eq_none_short (rel : List String) (h4 : rel.length < 4) :
    parse_archive_path rel = none := by
  unfold parse_archive_path
  rw [if_pos h4]

/-- The classifier rejects any path whose third segment fails the timestamp
regex. -/
theorem parse_archive_path_eq_none_bad_ts (rel : List String)
    (ht : timestampREMatch (rel.getD 2 "") = false) :
    parse_archive_path rel = none := by
  unfold parse_archive_path
  by_cases h4 : rel.length < 4
  · rw [if_pos h4]
  · rw [if_neg h4, ht]
    rfl

/-- Acceptance characterization of the classifier, shared by the claims. -/
theorem parse_archive_path_isSome_characterization (rel : List String) :
    (parse_archive_path rel).isSome = true
      ↔ 4 ≤ rel.length ∧ timestampREMatch (rel.getD 2 "") = true := by
  constructor
  · intro h
    by_cases h4 : rel.length < 4
    · rw [parse_archive_path_eq_none_short rel h4] at h
      exact absurd h (by decide)
    · cases ht : timestampREMatch (rel.getD 2 "") with
      | true => exact ⟨by omega, rfl⟩
      | false =>
        rw [parse_archive_path_eq_none_bad_ts rel ht] at h
        exact absurd h (by decide)
  · rintro ⟨h4, ht⟩
    rw [parse_archive_path_eq_some rel h4 ht]
    rfl

/-- C3 (amended): the classifier accepts a path iff it has at least 4 segments
relative to the root and `TIMESTAMP_RE.match` accepts the third segment, i.e.
the third segment is `\d{8}_\d{6}` exactly or followed by one trailing
newline (Python `$` semantics); in every other case it returns `none`.  As a
Lean function it is pure and deterministic by construction. -/
theorem parse_archive_path_isSome_iff (rel : List String) :
    (parse_archive_path rel).isSome = true
      ↔ 4 ≤ rel.length ∧ timestampREMatch (rel.getD 2 "") = true :=
  parse_archive_path_isSome_characterization rel

/-- C3 counterexample: the claim as stated requires the third segment to
*fully* match `\d{8}_\d{6}`; the code's `re.match` with `$` also accepts a
third segment carrying one trailing newline, so this path is classified
although its third segment does not fully match the pattern. -/
theorem parse_archive_path_newline_counterexample :
    (parse_archive_path ["proj", "main", "12345678_123456\n", "x.md"]).isSome = true
      ∧ timestampExact "12345678_123456\n" = false := by decide

/-- C4: for every path the classifier accepts, the category facet is the
fourth segment when that segment is in the known category set, and the
sentinel `"root"` otherwise. -/
theorem parse_archive_path_dir_type (rel : List String) (f : Facets)
    (h : parse_archive_path rel = some f) :
    f.dir_type
      = some (if VALID_TYPES.contains (rel.getD 3 "") then rel.getD 3 "" else "root") := by
  have hsome : (parse_archive_path rel).isSome = true := by rw [h]; rfl
  obtain ⟨h4, ht⟩ := (parse_archive_path_isSome_characterization rel).mp hsome
  rw [parse_archive_path_eq_some rel h4 ht] at h
  injection h with h
  rw [← h]

/-- Closed witness for `parse_archive_path_dir_type` at a concrete path. -/
theorem parse_archive_path_dir_type_witness :
    parse_archive_path ["p", "b", "20240101_120000", "plans", "x.md"]
        = some ⟨"p", "b", "20240101_120000", some "plans"⟩
      ∧ (Facets.mk "p" "b" "20240101_120000" (some "plans")).dir_type
        = some (if VALID_TYPES.contains
              ((["p", "b", "20240101_120000", "plans", "x.md"] : List String).getD 3 "")
            then (["p", "b", "20240101_120000", "plans", "x.md"] : List String).getD 3 ""
            else "root") :=
  ⟨by decide, parse_archive_path_dir_type _ _ (by decide)⟩

/-- C5: for every relative path matching the archive convention
`project/branch/timestamp/[category/]filename.md` (timestamp exact, category
drawn from the known set or absent), the classifier accepts the path and
rebuilding a relative path from its facets plus the filename reproduces the
original, the category segment present exactly when it was present. -/
theorem facets_roundtrip (p b t fn : String) (cat : Option String)
    (ht : timestampExact t = true)
    (hcat : ∀ c ∈ cat, c ∈ VALID_TYPES)
    (hfn : mdFilename fn = true) :
    ∃ f, parse_archive_path ([p, b, t] ++ cat.toList ++ [fn]) = some f
      ∧ reconstructRelPath f fn = [p, b, t] ++ cat.toList ++ [fn] := by
  have htRE : timestampREMatch t = true := by
    unfold timestampREMatch; rw [ht]; rfl
  cases cat with
  | none =>
    refine ⟨⟨p, b, t, some "root"⟩, ?_, ?_⟩
    · have hget2 : ([p, b, t, fn] : List String).getD 2 "" = t := by rfl
      have hget3 : ([p, b, t, fn] : List String).getD 3 "" = fn := by rfl
      have h := parse_archive_path_eq_some [p, b, t, fn] (by simp) (by rw [hget2]; exact htRE)
      simp only [Option.toList, List.append_nil]
      rw [show ([p, b, t] ++ [fn] : List String) = [p, b, t, fn] by rfl]
      rw [h, hget3, contains_eq_false_of_md fn hfn]
      rfl
    · unfold reconstructRelPath
      simp
  | some c =>
    have hcv : c ∈ VALID_TYPES := hcat c rfl
    refine ⟨⟨p, b, t, some c⟩, ?_, ?_⟩
    · have hget2 : ([p, b, t, c, fn] : List String).getD 2 "" = t := by rfl
      have hget3 : ([p, b, t, c, fn] : List String).getD 3 "" = c := by rfl
      have h := parse_archive_path_eq_some [p, b, t, c, fn] (by simp) (by rw [hget2]; exact htRE)
      have hc : VALID_TYPES.contains c = true := by simpa using hcv
      rw [show ([p, b, t] ++ (some c).toList ++ [fn] : List String) = [p, b, t, c, fn] by simp]
      rw [h, hget3, hc]
      rfl
    · unfold reconstructRelPath
      have hroot : (c == "root") = false := valid_types_ne_root c hcv
      simp [hroot]

/-- The line scan yields nothing when no line matches any term. -/
theorem findMatchLineScan_eq_none (terms : List String) (lines : List String)
    (h : ∀ line ∈ lines, lineMatchesAnyTerm terms line = false) :
    ∀ i, findMatchLineScan terms lines i = none := by
  induction lines with
  | nil => intro i; rfl
  | cons line rest ih =>
    intro i
    unfold findMatchLineScan
    rw [h line (List.mem_cons_self line rest)]
    exact ih (fun l hl => h l (List.mem_cons_of_mem line hl)) (i + 1)

/-- C10: the reported match line defaults to 1 when the heuristic finds
nothing — whenever the file is unreadable (`contentOpt = none`) or no line of
its content contains any whitespace-delimited, de-quoted query term as a
case-insensitive substring, `_find_match_line` reports line 1. -/
theorem find_match_line_default_one (contentOpt : Option String) (pattern : String)
    (h : ∀ content ∈ contentOpt, ∀ line ∈ pySplitLines content,
        lineMatchesAnyTerm (pySplitWs (stripDoubleQuotes pattern)) line = false) :
    find_match_line contentOpt pattern = 1 := by
  unfold find_match_line
  cases contentOpt with
  | none => rfl
  | some content =>
    show (findMatchLineScan (pySplitWs (stripDoubleQuotes pattern))
        (pySplitLines content) 1).getD 1 = 1
    rw [findMatchLineScan_eq_none _ _ (h content rfl) 1]
    rfl

/-- Closed witness for `find_match_line_default_one`: a pattern none of whose
terms occurs in the file's two lines. -/
theorem find_match_line_default_one_witness :
    (∀ content ∈ (some "alpha beta\ngamma delta" : Option String),
        ∀ line ∈ pySplitLines content,
          lineMatchesAnyTerm (pySplitWs (stripDoubleQuotes "\"zeta\" omega")) line = false)
      ∧ find_match_line (some "alpha beta\ngamma delta") "\"zeta\" omega" = 1 := by
  constructor
  · intro content hc
    rw [Option.mem_def, Option.some_inj] at hc
    subst hc
    decide
  · exact find_match_line_default_one (some "alpha beta\ngamma delta") "\"zeta\" omega"
      (by intro content hc; rw [Option.mem_def, Option.some_inj] at hc; subst hc; decide)

/-! ### Search: filters, ordering, limit, bad queries -/

/-- Membership through `rankInsert`. -/
theorem mem_rankInsert (x z : Document × Int) (l : List (Document × Int)) :
    z ∈ rankInsert x l ↔ z = x ∨ z ∈ l := by
  induction l with
  | nil => simp [rankInsert]
  | cons y ys ih =>
    unfold rankInsert
    by_cases h : x.2 ≤ y.2
    · rw [if_pos h]
      simp only [List.mem_cons]
    · rw [if_neg h]
      simp only [List.mem_cons, ih]
      tauto

/-- `rankSort` neither adds nor loses rows. -/
theorem mem_rankSort (z : Document × Int) (l : List (Document × Int)) :
    z ∈ rankSort l ↔ z ∈ l := by
  induction l with
  | nil => simp [rankSort]
  | cons x xs ih =>
    unfold rankSort
    rw [mem_rankInsert, ih, List.mem_cons]

/-- Inserting into an ascending-by-rank list keeps it ascending. -/
theorem pairwise_rankInsert (x : Document × Int) (l : List (Document × Int))
    (h : l.Pairwise (fun a b => a.2 ≤ b.2)) :
    (rankInsert x l).Pairwise (fun a b => a.2 ≤ b.2) := by
  induction l with
  | nil => simp [rankInsert]
  | cons y ys ih =>
    rw [List.pairwise_cons] at h
    obtain ⟨hy, hys⟩ := h
    unfold rankInsert
    by_cases hxy : x.2 ≤ y.2
    · rw [if_pos hxy]
      refine List.Pairwise.cons ?_ (List.Pairwise.cons hy hys)
      intro z hz
      rcases List.mem_cons.mp hz with rfl | hz
      · exact hxy
      · exact le_trans hxy (hy z hz)
    · rw [if_neg hxy]
      refine List.Pairwise.cons ?_ (ih hys)
      intro z hz
      rcases (mem_rankInsert x z ys).mp hz with rfl | hz
      · omega
      · exact hy z hz

/-- The output of `rankSort` is ascending by rank. -/
theorem pairwise_rankSort (l : List (Document × Int)) :
    (rankSort l).Pairwise (fun a b => a.2 ≤ b.2) := by
  induction l with
  | nil => simp [rankSort]
  | cons x xs ih => exact pairwise_rankInsert x _ ih

/-- `LIMIT` only ever drops rows from the tail. -/
theorem applyLimit_sublist (n : Int) (l : List (Document × Int)) :
    List.Sublist (applyLimit n l) l := by
  unfold applyLimit
  split
  · exact List.Sublist.refl l
  · exact List.take_sublist _ l

/-- With a non-negative limit, `LIMIT` caps the row count by the limit. -/
theorem length_applyLimit_le (n : Int) (l : List (Document × Int)) (hn : 0 ≤ n) :
    ((applyLimit n l).length : Int) ≤ n := by
  unfold applyLimit
  rw [if_neg (by omega)]
  have h1 : (l.take n.toNat).length ≤ n.toNat := List.length_take_le n.toNat l
  have h2 : ((l.take n.toNat).length : Int) ≤ (n.toNat : Int) := by exact_mod_cast h1
  rwa [Int.toNat_of_nonneg hn] at h2

/-- Reading the conjunctive `WHERE` clauses back as facet conditions. -/
theorem facetFilter_spec (args : SearchArgs) (d : Document)
    (h : facetFilter args d = true) :
    (∀ p, args.project = some p → d.project = p)
      ∧ (∀ t, args.type = some t → d.dir_type = some t)
      ∧ (∀ b, args.branch = some b → d.branch = b)
      ∧ (args.latest = true → d.is_latest = 1) := by
  unfold facetFilter at h
  simp only [Bool.and_eq_true] at h
  obtain ⟨⟨⟨h1, h2⟩, h3⟩, h4⟩ := h
  refine ⟨?_, ?_, ?_, ?_⟩
  · intro p hp
    rw [hp] at h1
    simpa using h1
  · intro t ht
    rw [ht] at h2
    simpa using h2
  · intro b hb
    rw [hb] at h3
    simpa using h3
  · intro hl
    rw [hl] at h4
    simpa using h4

/-- C2: every successful search returns its rows ordered by the engine's rank
ascending — i.e. by text relevance descending, best match first: any row
appearing earlier has a rank at most that of any later row. -/
theorem do_search_rank_sorted (eng : Fts5Engine) (db : DBState) (args : SearchArgs)
    (rows : List (Document × Int)) (h : do_search eng (some db) args = .ok rows) :
    rows.Pairwise (fun a b => a.2 ≤ b.2) := by
  unfold do_search at h
  cases hrun : eng.run args.pattern with
  | error e =>
    rw [hrun] at h
    exact absurd h (by simp)
  | ok isMatch =>
    rw [hrun] at h
    simp only [SearchResult.ok.injEq] at h
    subst h
    exact List.Pairwise.sublist (applyLimit_sublist _ _) (pairwise_rankSort _)

/-- Closed witness for `do_search_rank_sorted`: a two-document store whose
rows come back sorted by rank. -/
theorem do_search_rank_sorted_witness :
    do_search lengthRankEngine (some sampleDb) sampleArgsNoFilter
        = .ok [(sampleDoc2, 1), (sampleDoc, 3)]
      ∧ List.Pairwise (fun a b : Document × Int => a.2 ≤ b.2)
          [(sampleDoc2, 1), (sampleDoc, 3)] :=
  ⟨by decide, do_search_rank_sorted lengthRankEngine sampleDb sampleArgsNoFilter
    [(sampleDoc2, 1), (sampleDoc, 3)] (by decide)⟩

/-- C1 (amended): every returned row satisfies all supplied facet filters
simultaneously, and when the supplied limit is non-negative (the default is
20) the number of returned rows never exceeds it.  (For a negative `-n`,
SQLite places no upper bound on the row count — see the counterexample.) -/
theorem do_search_conjunctive_filters_and_limit (eng : Fts5Engine) (db : DBState)
    (args : SearchArgs) (rows : List (Document × Int))
    (h : do_search eng (some db) args = .ok rows) :
    (∀ r ∈ rows,
        (∀ p, args.project = some p → r.1.project = p)
          ∧ (∀ t, args.type = some t → r.1.dir_type = some t)
          ∧ (∀ b, args.branch = some b → r.1.branch = b)
          ∧ (args.latest = true → r.1.is_latest = 1))
      ∧ (0 ≤ args.n → (rows.length : Int) ≤ args.n) := by
  unfold do_search at h
  cases hrun : eng.run args.pattern with
  | error e =>
    rw [hrun] at h
    exact absurd h (by simp)
  | ok isMatch =>
    rw [hrun] at h
    simp only [SearchResult.ok.injEq] at h
    subst h
    constructor
    · intro r hr
      have hr1 : r ∈ rankSort ((joinMatches isMatch (eng.rank args.pattern) db).filter
          (fun dr => facetFilter args dr.1)) := (applyLimit_sublist _ _).subset hr
      have hr2 := (mem_rankSort _ _).mp hr1
      have hr3 := (List.mem_filter.mp hr2).2
      exact facetFilter_spec args r.1 hr3
    · intro hn
      exact length_applyLimit_le args.n _ hn

/-- Closed witness for `do_search_conjunctive_filters_and_limit`: with all
facet filters supplied, the only returned row satisfies them all and the
count respects the limit. -/
theorem do_search_conjunctive_filters_and_limit_witness :
    do_search lengthRankEngine (some sampleDb) sampleArgs = .ok [(sampleDoc, 3)]
      ∧ ((∀ r ∈ [(sampleDoc, (3 : Int))],
            (∀ p, sampleArgs.project = some p → r.1.project = p)
              ∧ (∀ t, sampleArgs.type = some t → r.1.dir_type = some t)
              ∧ (∀ b, sampleArgs.branch = some b → r.1.branch = b)
              ∧ (sampleArgs.latest = true → r.1.is_latest = 1))
          ∧ (0 ≤ sampleArgs.n
              → (([(sampleDoc, (3 : Int))].length : Int) ≤ sampleArgs.n))) :=
  ⟨by decide, do_search_conjunctive_filters_and_limit lengthRankEngine sampleDb sampleArgs
    [(sampleDoc, 3)] (by decide)⟩

/-- C1 counterexample: `-n` is an `int`, and for a negative limit SQLite's
`LIMIT` places no upper bound on the row count, so a search with limit `-1`
returns one row — more than the supplied limit. -/
theorem do_search_negative_limit_counterexample :
    do_search lengthRankEngine
        (some { documents := [sampleDoc], fts := [(1, "hello")] })
        { pattern := "hello", project := none, type := none, branch := none,
          latest := false, n := -1 }
      = .ok [(sampleDoc, 5)]
      ∧ ¬ (([(sampleDoc, (5 : Int))].length : Int) ≤ (-1 : Int)) := by
  constructor
  · decide
  · decide

/-- C8: a query-text syntax error does not escape `do_search`: the
`sqlite3.OperationalError` is caught and turned into the reported error line
plus the usage-hint line, and the subcommand exits with status 1. -/
theorem do_search_bad_query_reported (eng : Fts5Engine) (db : DBState)
    (args : SearchArgs) (e : String) (h : eng.run args.pattern = .error e) :
    do_search eng (some db) args
        = .queryError ("search error: " ++ e)
          "tip: use simple terms or quote phrases with double quotes"
      ∧ searchExitCode (do_search eng (some db) args) = 1 := by
  have h1 : do_search eng (some db) args
      = .queryError ("search error: " ++ e)
        "tip: use simple terms or quote phrases with double quotes" := by
    unfold do_search
    rw [h]
  exact ⟨h1, by rw [h1]; rfl⟩

/-- Closed witness for `do_search_bad_query_reported` on a concrete
always-failing query parser. -/
theorem do_search_bad_query_reported_witness :
    badQueryEngine.run "\x22unterminated" = .error "fts5: syntax error near \x22\x22"
      ∧ (do_search badQueryEngine (some sampleDb)
            { pattern := "\x22unterminated", project := none, type := none,
              branch := none, latest := false, n := 20 }
          = .queryError ("search error: " ++ "fts5: syntax error near \x22\x22")
            "tip: use simple terms or quote phrases with double quotes"
        ∧ searchExitCode (do_search badQueryEngine (some sampleDb)
            { pattern := "\x22unterminated", project := none, type := none,
              branch := none, latest := false, n := 20 }) = 1) :=
  ⟨rfl, do_search_bad_query_reported _ _ _ _ rfl⟩

/-! ### Ingestion: error recovery, latest flag, scoped-frame property -/

/-- The classifier's project facet is the path's first segment. -/
theorem parse_archive_path_project_head (rel : List String) (f : Facets)
    (h : parse_archive_path rel = some f) : rel.head? = some f.project := by
  have hsome : (parse_archive_path rel).isSome = true := by rw [h]; rfl
  obtain ⟨h4, ht⟩ := (parse_archive_path_isSome_characterization rel).mp hsome
  rw [parse_archive_path_eq_some rel h4 ht] at h
  injection h with h
  rw [← h]
  cases rel with
  | nil => simp at h4
  | cons a rest => rfl

/-- Every rowid in the table is below SQLite's next assigned rowid. -/
theorem id_lt_nextRowid (docs : List Document) (d : Document) :
    d ∈ docs → d.id < nextRowid docs := by
  unfold nextRowid
  induction docs with
  | nil => intro h; cases h
  | cons x xs ih =>
    intro h
    simp only [List.foldr_cons]
    rcases List.mem_cons.mp h with rfl | h
    · have := le_max_left d.id (xs.foldr (fun x m => max x.id m) 0)
      omega
    · have h1 := ih h
      have := le_max_right x.id (xs.foldr (fun x m => max x.id m) 0)
      omega

/-- The shape of one scan step: either the store is untouched (a skipped,
unparseable, unreadable or duplicate file), or exactly one document with its
fresh rowid and one content record are appended. -/
theorem processFile_shape (base : List String) (latestDirs : List (List String))
    (now : String) (st : DBState × Nat × Nat) (f : FileEntry) :
    (processFile base latestDirs now st f).1 = st.1
      ∨ ∃ parsed, parse_archive_path f.relParts = some parsed
          ∧ (processFile base latestDirs now st f).1.documents
              = st.1.documents ++ [mkIngestDoc base latestDirs now st.1.documents f parsed]
          ∧ (processFile base latestDirs now st f).1.fts
              = st.1.fts ++ [(nextRowid st.1.documents, f.content)] := by
  unfold processFile
  split
  · exact Or.inl rfl
  · split
    · exact Or.inl rfl
    · split
      · exact Or.inl rfl
      · next parsed hp =>
        split
        · exact Or.inl rfl
        · split
          · exact Or.inl rfl
          · exact Or.inr ⟨parsed, hp, rfl, rfl⟩

/-- One scan step adds one to `count` on a successful insert, one to
`errors` on a read failure or duplicate, and nothing otherwise — in total,
one per processed candidate file. -/
theorem processFile_counts (base : List String) (latestDirs : List (List String))
    (now : String) (db : DBState) (count errors : Nat) (f : FileEntry) :
    (processFile base latestDirs now (db, count, errors) f).2.1
        + (processFile base latestDirs now (db, count, errors) f).2.2
      = count + errors + (if isCandidate base f then 1 else 0) := by
  unfold processFile
  split
  · next h1 =>
    have hc : isCandidate base f = false := by
      unfold isCandidate; rw [h1]; rfl
    rw [hc]
    show count + errors = count + errors + 0
    omega
  · next h1 =>
    rw [Bool.not_eq_true] at h1
    split
    · next h2 =>
      have hc : isCandidate base f = false := by
        unfold isCandidate; rw [h1, h2]; rfl
      rw [hc]
      show count + errors = count + errors + 0
      omega
    · next h2 =>
      rw [Bool.not_eq_true] at h2
      split
      · next hp =>
        have hc : isCandidate base f = false := by
          unfold isCandidate; rw [h1, h2, hp]; rfl
        rw [hc]
        show count + errors = count + errors + 0
        omega
      · next parsed hp =>
        have hc : isCandidate base f = true := by
          unfold isCandidate; rw [h1, h2, hp]; rfl
        rw [hc]
        split
        · show count + (errors + 1) = count + errors + 1
          omega
        · split
          · show count + (errors + 1) = count + errors + 1
            omega
          · show count + 1 + errors = count + errors + 1
            omega

/-- Over a whole scan, `count + errors` equals the number of candidate
files: every candidate is either indexed or counted as skipped, and the scan
never stops early. -/
theorem foldl_processFile_counts (base : List String) (latestDirs : List (List String))
    (now : String) (files : List FileEntry) :
    ∀ (db : DBState) (count errors : Nat),
      (files.foldl (processFile base latestDirs now) (db, count, errors)).2.1
          + (files.foldl (processFile base latestDirs now) (db, count, errors)).2.2
        = count + errors + (files.filter (isCandidate base)).length := by
  induction files with
  | nil => intro db c e; simp
  | cons f rest ih =>
    intro db c e
    rw [List.foldl_cons]
    have heta : processFile base latestDirs now (db, c, e) f
        = ((processFile base latestDirs now (db, c, e) f).1,
            (processFile base latestDirs now (db, c, e) f).2.1,
            (processFile base latestDirs now (db, c, e) f).2.2) := rfl
    rw [heta, ih]
    have hsum := processFile_counts base latestDirs now db c e f
    cases hc : isCandidate base f with
    | true =>
      rw [hc] at hsum
      simp at hsum
      rw [List.filter_cons_of_pos hc]
      simp only [List.length_cons]
      omega
    | false =>
      rw [hc] at hsum
      simp at hsum
      rw [List.filter_cons_of_neg (by rw [hc]; exact Bool.false_ne_true)]
      omega

/-- Evaluation of a full rebuild once the root check passes. -/
theorem do_ingest_none_eq (fs : Filesystem) (base : List String) (db₀ : DBState)
    (now : String) (hroot : fs.rootExists = true) :
    do_ingest fs base none db₀ now
      = { db := ((ingestScanned fs none).foldl
            (processFile base (resolve_latest_timestamps fs.links) now)
            (⟨[], []⟩, 0, 0)).1
          exitCode := 0
          output := ingestReportLines
            ((ingestScanned fs none).foldl
              (processFile base (resolve_latest_timestamps fs.links) now)
              (⟨[], []⟩, 0, 0)).2.1
            ((ingestScanned fs none).foldl
              (processFile base (resolve_latest_timestamps fs.links) now)
              (⟨[], []⟩, 0, 0)).2.2
          errOutput := []
          count := ((ingestScanned fs none).foldl
            (processFile base (resolve_latest_timestamps fs.links) now)
            (⟨[], []⟩, 0, 0)).2.1
          errors := ((ingestScanned fs none).foldl
            (processFile base (resolve_latest_timestamps fs.links) now)
            (⟨[], []⟩, 0, 0)).2.2 } := by
  unfold do_ingest
  split
  · next h => rw [hroot] at h; exact absurd h (by decide)
  · split
    · next A h => exact absurd h (by simp)
    · rfl

/-- Evaluation of a scoped rebuild once both configuration checks pass. -/
theorem do_ingest_some_eq (fs : Filesystem) (base : List String) (A : String)
    (db₀ : DBState) (now : String) (hroot : fs.rootExists = true)
    (hproj : fs.projects.contains A = true) :
    do_ingest fs base (some A) db₀ now
      = { db := ((ingestScanned fs (some A)).foldl
            (processFile base (resolve_latest_timestamps fs.links) now)
            (scopedDelete A db₀, 0, 0)).1
          exitCode := 0
          output := ingestReportLines
            ((ingestScanned fs (some A)).foldl
              (processFile base (resolve_latest_timestamps fs.links) now)
              (scopedDelete A db₀, 0, 0)).2.1
            ((ingestScanned fs (some A)).foldl
              (processFile base (resolve_latest_timestamps fs.links) now)
              (scopedDelete A db₀, 0, 0)).2.2
          errOutput := []
          count := ((ingestScanned fs (some A)).foldl
            (processFile base (resolve_latest_timestamps fs.links) now)
            (scopedDelete A db₀, 0, 0)).2.1
          errors := ((ingestScanned fs (some A)).foldl
            (processFile base (resolve_latest_timestamps fs.links) now)
            (scopedDelete A db₀, 0, 0)).2.2 } := by
  unfold do_ingest
  split
  · next h => rw [hroot] at h; exact absurd h (by decide)
  · split
    · next A' h =>
      injection h with h
      subst h
      split
      · next h2 => rw [hproj] at h2; exact absurd h2 (by decide)
      · rfl
    · next h => exact absurd h (by simp)

/-- C9: when the up-front configuration checks pass, an ingestion run always
completes with exit status 0, its report contains the indexed count and (when
non-zero) the skipped count, and `count + errors` accounts for every
candidate file of the scan — each read failure or duplicate insert adds one
to the error counter and the scan continues, so no per-file failure aborts
the batch. -/
theorem do_ingest_error_recovery (fs : Filesystem) (base : List String)
    (projectArg : Option String) (db₀ : DBState) (now : String)
    (hroot : fs.rootExists = true)
    (hproj : ∀ A, projectArg = some A → fs.projects.contains A = true) :
    (do_ingest fs base projectArg db₀ now).exitCode = 0
      ∧ (do_ingest fs base projectArg db₀ now).count
            + (do_ingest fs base projectArg db₀ now).errors
          = ((ingestScanned fs projectArg).filter (isCandidate base)).length
      ∧ (do_ingest fs base projectArg db₀ now).output
          = ingestReportLines (do_ingest fs base projectArg db₀ now).count
              (do_ingest fs base projectArg db₀ now).errors := by
  cases projectArg with
  | none =>
    rw [do_ingest_none_eq fs base db₀ now hroot]
    refine ⟨rfl, ?_, rfl⟩
    have h := foldl_processFile_counts base (resolve_latest_timestamps fs.links) now
      (ingestScanned fs none) ⟨[], []⟩ 0 0
    simpa using h
  | some A =>
    rw [do_ingest_some_eq fs base A db₀ now hroot (hproj A rfl)]
    refine ⟨rfl, ?_, rfl⟩
    have h := foldl_processFile_counts base (resolve_latest_timestamps fs.links) now
      (ingestScanned fs (some A)) (scopedDelete A db₀) 0 0
    simpa using h

/-- Closed witness for `do_ingest_error_recovery`: a scoped run over the
one-file project `A`. -/
theorem do_ingest_error_recovery_witness :
    (sampleFs.rootExists = true
        ∧ (∀ A, (some "A" : Option String) = some A
            → sampleFs.projects.contains A = true))
      ∧ ((do_ingest sampleFs sampleBase (some "A") sampleDbB "now").exitCode = 0
        ∧ (do_ingest sampleFs sampleBase (some "A") sampleDbB "now").count
              + (do_ingest sampleFs sampleBase (some "A") sampleDbB "now").errors
            = ((ingestScanned sampleFs (some "A")).filter (isCandidate sampleBase)).length
        ∧ (do_ingest sampleFs sampleBase (some "A") sampleDbB "now").output
            = ingestReportLines
                (do_ingest sampleFs sampleBase (some "A") sampleDbB "now").count
                (do_ingest sampleFs sampleBase (some "A") sampleDbB "now").errors) :=
  ⟨⟨by decide, fun A hA => by injection hA with h; subst h; decide⟩,
    do_ingest_error_recovery sampleFs sampleBase (some "A") sampleDbB "now"
      (by decide) (fun A hA => by injection hA with h; subst h; decide)⟩

/-- Membership in the Latest Set produced by the resolver: exactly the
resolved paths of symlinks named `latest` whose target is a directory. -/
theorem mem_resolve_latest_timestamps (links : List LinkEntry) (p : List String) :
    p ∈ resolve_latest_timestamps links
      ↔ ∃ l ∈ links, l.isSymlink = true ∧ l.resolvedIsDir = true ∧ l.resolved = p := by
  unfold resolve_latest_timestamps
  simp only [List.mem_map, List.mem_filter, Bool.and_eq_true]
  constructor
  · rintro ⟨l, ⟨hl, hs, hd⟩, hres⟩
    exact ⟨l, hl, hs, hd, hres⟩
  · rintro ⟨l, hl, hs, hd, hres⟩
    exact ⟨l, ⟨hl, hs, hd⟩, hres⟩

/-- The inserted row's `is_latest` flag is 1 exactly when the file's
`project/branch/timestamp` directory is in the Latest Set. -/
theorem mkIngestDoc_is_latest (base : List String) (latestDirs : List (List String))
    (now : String) (docs : List Document) (f : FileEntry) (parsed : Facets) :
    ((mkIngestDoc base latestDirs now docs f parsed).is_latest = 1
      ↔ (base ++ [(mkIngestDoc base latestDirs now docs f parsed).project,
          (mkIngestDoc base latestDirs now docs f parsed).branch,
          (mkIngestDoc base latestDirs now docs f parsed).timestamp]) ∈ latestDirs) := by
  show ((if latestDirs.contains (base ++ [parsed.project, parsed.branch, parsed.timestamp])
      then 1 else 0 : Nat) = 1
    ↔ (base ++ [parsed.project, parsed.branch, parsed.timestamp]) ∈ latestDirs)
  cases hc : latestDirs.contains (base ++ [parsed.project, parsed.branch, parsed.timestamp]) with
  | true =>
    simp only [if_pos rfl]
    exact iff_of_true rfl (by simpa using hc)
  | false =>
    rw [if_neg (Bool.false_ne_true)]
    exact iff_of_false (by omega) (by simpa using hc)

/-- The `is_latest` discipline is preserved along the whole scan: if every
document already in the store satisfies it, so does every document after
processing any list of files. -/
theorem foldl_processFile_is_latest (base : List String)
    (latestDirs : List (List String)) (now : String) (files : List FileEntry) :
    ∀ st : DBState × Nat × Nat,
      (∀ d ∈ st.1.documents,
        (d.is_latest = 1 ↔ (base ++ [d.project, d.branch, d.timestamp]) ∈ latestDirs)) →
      ∀ d ∈ (files.foldl (processFile base latestDirs now) st).1.documents,
        (d.is_latest = 1 ↔ (base ++ [d.project, d.branch, d.timestamp]) ∈ latestDirs) := by
  induction files with
  | nil => intro st h; exact h
  | cons f rest ih =>
    intro st h
    rw [List.foldl_cons]
    apply ih
    intro d hd
    rcases processFile_shape base latestDirs now st f with heq | ⟨parsed, _, hdocs, _⟩
    · rw [heq] at hd
      exact h d hd
    · rw [hdocs, List.mem_append] at hd
      rcases hd with hd | hd
      · exact h d hd
      · rw [List.mem_singleton] at hd
        subst hd
        exact mkIngestDoc_is_latest base latestDirs now st.1.documents f parsed

/-- On a full rebuild, the resulting store is exactly the scan's fold from
the freshly recreated empty schema. -/
theorem do_ingest_full_db (fs : Filesystem) (base : List String) (db₀ : DBState)
    (now : String) (hroot : fs.rootExists = true) :
    (do_ingest fs base none db₀ now).db
      = ((ingestScanned fs none).foldl
          (processFile base (resolve_latest_timestamps fs.links) now)
          (⟨[], []⟩, 0, 0)).1 := by
  rw [do_ingest_none_eq fs base db₀ now hroot]

/-- C7: after a full rebuild, a document's `is_latest` flag is 1 iff its
`<root>/<project>/<branch>/<timestamp>` directory belongs to the Latest Set
computed by `resolve_latest_timestamps` — which holds exactly the
symlink-resolved paths of symlinks literally named `latest` whose resolution
target is a directory; broken or non-directory links contribute nothing. -/
theorem do_ingest_is_latest_iff (fs : Filesystem) (base : List String)
    (db₀ : DBState) (now : String) (hroot : fs.rootExists = true) :
    ∀ d ∈ (do_ingest fs base none db₀ now).db.documents,
      ((d.is_latest = 1
          ↔ (base ++ [d.project, d.branch, d.timestamp])
              ∈ resolve_latest_timestamps fs.links)
        ∧ (d.is_latest = 1
          ↔ ∃ l ∈ fs.links, l.isSymlink = true ∧ l.resolvedIsDir = true
              ∧ l.resolved = base ++ [d.project, d.branch, d.timestamp])) := by
  intro d hd
  rw [do_ingest_full_db fs base db₀ now hroot] at hd
  have h1 := foldl_processFile_is_latest base (resolve_latest_timestamps fs.links) now
    (ingestScanned fs none) (⟨[], []⟩, 0, 0) (by intro d hd; cases hd) d hd
  exact ⟨h1, h1.trans (mem_resolve_latest_timestamps fs.links _)⟩

/-- Closed witness for `do_ingest_is_latest_iff` on the concrete one-file,
one-link archive. -/
theorem do_ingest_is_latest_iff_witness :
    sampleFs.rootExists = true
      ∧ ∀ d ∈ (do_ingest sampleFs sampleBase none sampleDbB "now").db.documents,
          ((d.is_latest = 1
              ↔ (sampleBase ++ [d.project, d.branch, d.timestamp])
                  ∈ resolve_latest_timestamps sampleFs.links)
            ∧ (d.is_latest = 1
              ↔ ∃ l ∈ sampleFs.links, l.isSymlink = true ∧ l.resolvedIsDir = true
                  ∧ l.resolved = sampleBase ++ [d.project, d.branch, d.timestamp])) :=
  ⟨by decide, do_ingest_is_latest_iff sampleFs sampleBase sampleDbB "now" (by decide)⟩

/-- Filtering twice with one predicate is filtering once. -/
theorem filter_filter_self {α : Type} (p : α → Bool) (l : List α) :
    (l.filter p).filter p = l.filter p := by
  induction l with
  | nil => rfl
  | cons x xs ih =>
    cases hx : p x with
    | true => rw [List.filter_cons_of_pos hx, List.filter_cons_of_pos hx, ih]
    | false => rw [List.filter_cons_of_neg (by rw [hx]; exact Bool.false_ne_true), ih]

/-- The scoped delete keeps exactly the other projects' document rows. -/
theorem scopedDelete_documents (A : String) (db : DBState) :
    (scopedDelete A db).documents = db.documents.filter (fun d => !(d.project == A)) :=
  rfl

/-- With unique rowids (the `INTEGER PRIMARY KEY` invariant), the scoped
delete of project `A` keeps every other project's content record. -/
theorem scopedDelete_fts_iff (A : String) (db : DBState)
    (hids : (db.documents.map Document.id).Nodup)
    (d : Document) (hd : d ∈ db.documents) (hdA : d.project ≠ A) (c : String) :
    ((d.id, c) ∈ (scopedDelete A db).fts ↔ (d.id, c) ∈ db.fts) := by
  have hnone : (db.documents.any (fun x => x.id == (d.id, c).1 && x.project == A))
      = false := by
    rw [← Bool.not_eq_true]
    intro hany
    rw [List.any_eq_true] at hany
    obtain ⟨x, hx, hpx⟩ := hany
    rw [Bool.and_eq_true, beq_iff_eq, beq_iff_eq] at hpx
    have hxd : x = d := List.inj_on_of_nodup_map hids hx hd hpx.1
    exact hdA (hxd ▸ hpx.2)
  unfold scopedDelete
  rw [List.mem_filter]
  constructor
  · rintro ⟨h, -⟩
    exact h
  · intro h
    refine ⟨h, ?_⟩
    rw [hnone]
    rfl

/-- The scan-loop frame over any list of project-`A` files: the other
projects' document rows are untouched, old rows and content records are
kept, and every new content record carries a rowid fresh for the initial
store. -/
theorem foldl_processFile_frame (base : List String) (latestDirs : List (List String))
    (now : String) (A : String) (files : List FileEntry) :
    ∀ st : DBState × Nat × Nat,
      (∀ f ∈ files, f.relParts.head? = some A) →
      ((files.foldl (processFile base latestDirs now) st).1.documents.filter
            (fun d => !(d.project == A))
          = st.1.documents.filter (fun d => !(d.project == A)))
        ∧ (∀ x ∈ st.1.documents,
            x ∈ (files.foldl (processFile base latestDirs now) st).1.documents)
        ∧ (∀ rc ∈ st.1.fts, rc ∈ (files.foldl (processFile base latestDirs now) st).1.fts)
        ∧ (∀ rc ∈ (files.foldl (processFile base latestDirs now) st).1.fts,
            rc ∈ st.1.fts ∨ ∀ x ∈ st.1.documents, x.id ≠ rc.1) := by
  induction files with
  | nil =>
    intro st _
    exact ⟨rfl, fun x hx => hx, fun rc hrc => hrc, fun rc hrc => Or.inl hrc⟩
  | cons f rest ih =>
    intro st hfiles
    rw [List.foldl_cons]
    have hf : f.relParts.head? = some A := hfiles f (List.mem_cons_self f rest)
    have hrest : ∀ g ∈ rest, g.relParts.head? = some A :=
      fun g hg => hfiles g (List.mem_cons_of_mem f hg)
    obtain ⟨hi, hii, hiii, hiv⟩ := ih (processFile base latestDirs now st f) hrest
    rcases processFile_shape base latestDirs now st f with heq | ⟨parsed, hp, hdocs, hfts⟩
    · rw [heq] at hi hii hiii hiv
      exact ⟨hi, hii, hiii, hiv⟩
    · have hprojA : parsed.project = A := by
        have h1 := parse_archive_path_project_head f.relParts parsed hp
        rw [hf] at h1
        injection h1 with h1
        exact h1.symm
      have hPnd : ((!((mkIngestDoc base latestDirs now st.1.documents f parsed).project == A)))
          = false := by
        show (!(parsed.project == A)) = false
        rw [hprojA]
        simp
      refine ⟨?_, ?_, ?_, ?_⟩
      · rw [hi, hdocs, List.filter_append,
          List.filter_cons_of_neg (by rw [hPnd]; exact Bool.false_ne_true)]
        simp
      · intro x hx
        exact hii x (by rw [hdocs]; exact List.mem_append_left _ hx)
      · intro rc hrc
        exact hiii rc (by rw [hfts]; exact List.mem_append_left _ hrc)
      · intro rc hrc
        rcases hiv rc hrc with h' | h'
        · rw [hfts, List.mem_append] at h'
          rcases h' with h' | h'
          · exact Or.inl h'
          · rw [List.mem_singleton] at h'
            subst h'
            refine Or.inr (fun x hx => ?_)
            have := id_lt_nextRowid st.1.documents x hx
            omega
        · refine Or.inr (fun x hx => ?_)
          exact h' x (by rw [hdocs]; exact List.mem_append_left _ hx)

/-- C6: a scoped ingestion of project `A` leaves every other project's
documents and content records exactly as they were: the other projects'
document rows are unchanged as a set (their sublist is equal), and for every
pre-existing document of another project, its content record is present
afterwards iff it was present before. -/
theorem do_ingest_scoped_frame (fs : Filesystem) (base : List String) (A : String)
    (db₀ : DBState) (now : String)
    (hroot : fs.rootExists = true)
    (hproj : fs.projects.contains A = true)
    (hids : (db₀.documents.map Document.id).Nodup) :
    ((do_ingest fs base (some A) db₀ now).db.documents.filter
          (fun d => !(d.project == A))
        = db₀.documents.filter (fun d => !(d.project == A)))
      ∧ ∀ d ∈ db₀.documents, d.project ≠ A →
          ∀ c, ((d.id, c) ∈ (do_ingest fs base (some A) db₀ now).db.fts
            ↔ (d.id, c) ∈ db₀.fts) := by
  rw [do_ingest_some_eq fs base A db₀ now hroot hproj]
  have hscan : ∀ f ∈ ingestScanned fs (some A), f.relParts.head? = some A := by
    intro f hf
    unfold ingestScanned at hf
    have := (List.mem_filter.mp hf).2
    simpa using this
  obtain ⟨hi, hii, hiii, hiv⟩ := foldl_processFile_frame base
    (resolve_latest_timestamps fs.links) now A (ingestScanned fs (some A))
    (scopedDelete A db₀, 0, 0) hscan
  constructor
  · rw [hi]
    show ((scopedDelete A db₀).documents.filter (fun d => !(d.project == A)))
      = db₀.documents.filter (fun d => !(d.project == A))
    rw [scopedDelete_documents]
    exact filter_filter_self _ _
  · intro d hd hdA c
    have hd₁ : d ∈ (scopedDelete A db₀).documents := by
      rw [scopedDelete_documents, List.mem_filter]
      refine ⟨hd, ?_⟩
      simp [hdA]
    constructor
    · intro h
      rcases hiv (d.id, c) h with h' | h'
      · exact (scopedDelete_fts_iff A db₀ hids d hd hdA c).mp h'
      · exact absurd rfl (h' d hd₁)
    · intro h
      exact hiii (d.id, c) ((scopedDelete_fts_iff A db₀ hids d hd hdA c).mpr h)

/-- Closed witness for `do_ingest_scoped_frame`: scoped ingest of project
`A` leaves project `B`'s document and content record alone. -/
theorem do_ingest_scoped_frame_witness :
    (sampleFs.rootExists = true
        ∧ sampleFs.projects.contains "A" = true
        ∧ (sampleDbB.documents.map Document.id).Nodup)
      ∧ (((do_ingest sampleFs sampleBase (some "A") sampleDbB "now").db.documents.filter
              (fun d => !(d.project == "A"))
            = sampleDbB.documents.filter (fun d => !(d.project == "A")))
          ∧ ∀ d ∈ sampleDbB.documents, d.project ≠ "A" →
              ∀ c, ((d.id, c) ∈ (do_ingest sampleFs sampleBase (some "A") sampleDbB "now").db.fts
                ↔ (d.id, c) ∈ sampleDbB.fts)) :=
  ⟨⟨by decide, by decide, by decide⟩,
    do_ingest_scoped_frame sampleFs sampleBase "A" sampleDbB "now"
      (by decide) (by decide) (by decide)⟩

/-- Closed witness for `facets_roundtrip` at a concrete conventional path. -/
theorem facets_roundtrip_witness :
    (timestampExact "20240101_120000" = true
        ∧ (∀ x ∈ (some "plans" : Option String), x ∈ VALID_TYPES)
        ∧ mdFilename "x.md" = true)
      ∧ ∃ f, parse_archive_path (["p", "b", "20240101_120000"] ++ (some "plans").toList ++ ["x.md"]) = some f
          ∧ reconstructRelPath f "x.md"
            = ["p", "b", "20240101_120000"] ++ (some "plans").toList ++ ["x.md"] :=
  ⟨⟨by decide, by decide, by decide⟩,
    facets_roundtrip "p" "b" "20240101_120000" "x.md" (some "plans")
      (by decide) (by decide) (by decide)⟩

end ScratchSearch
